import Mathlib

/-!
# ClawRouter — verification of the payment-aware proxy core

Shallow embedding, in Lean 4, of the components of the ClawRouter
repository that the specification's claims are about:

* `BalanceMonitor` (src/balance.ts): TTL-cached balance reader with
  optimistic deduction and `$X.XX` formatting;
* `PaymentCache` (payment-cache.ts): per-endpoint TTL cache of
  negotiated x402 payment terms;
* `payFetch` / `handle402` (src/x402.ts): the payment-protocol engine
  wrapping outbound calls with challenge/response signing;
* `proxyRequest` / request handler (src/proxy.ts): the orchestrator
  sequencing dedup check, affordability gate, upstream call and
  response transformation;
* a two-request interleaving machine for the deduplicator
  (dedup.ts itself is not part of the sources; its operations are
  modelled from the specification, §4.4, and driven by the
  orchestrator code that calls them).

Machine integers: JS `bigint` balances are nonnegative on-chain token
amounts and are modelled as `Nat`/`Int`; JS `number` arithmetic in the
balance formatter is modelled exactly as IEEE-754 binary64 rounding
over `ℚ` (see `doubleRound` below).  Timestamps (`Date.now()`) are
`Nat` milliseconds.
-/

namespace ClawRouter

/-! ## Balance monitor (src/balance.ts) -/

/-- Cache TTL in milliseconds (`CACHE_TTL_MS = 30_000`). -/
def CACHE_TTL_MS : Nat := 30000

/-- `BALANCE_THRESHOLDS.LOW_BALANCE_MICROS = 1_000_000n`. -/
def LOW_BALANCE_MICROS : Int := 1000000

/-- `BALANCE_THRESHOLDS.ZERO_THRESHOLD = 100n`. -/
def ZERO_THRESHOLD : Int := 100

/-- Mutable state of a `BalanceMonitor`: `cachedBalance` (`null` = not
yet fetched) and `cachedAt` (ms timestamp of the last update).
Balances are modelled as `Int` (JS `bigint`). -/
structure BMState where
  cachedBalance : Option Int
  cachedAt : Nat
deriving DecidableEq, Repr

/-- Fresh monitor state: `cachedBalance = null`, `cachedAt = 0`. -/
def BMState.init : BMState := ⟨none, 0⟩

/-- `deductEstimated(amountMicros)`: subtract from the cached balance
only when a cache entry exists and covers the amount
(src/balance.ts lines 125-129).  Note the code consults neither
`cachedAt` nor the current time. -/
def deductEstimated (amountMicros : Int) (s : BMState) : BMState :=
  match s.cachedBalance with
  | some b => if b ≥ amountMicros then { s with cachedBalance := some (b - amountMicros) } else s
  | none => s

/-- `invalidate()`: drop the cache (src/balance.ts lines 135-138). -/
def BMState.invalidate (_ : BMState) : BMState := ⟨none, 0⟩

/-- Result of `checkBalance()` before formatting: the raw balance used
to build the `BalanceInfo`, plus the updated monitor state.
`now` is `Date.now()` and `fetched` is the value an RPC read would
return (the reader returns `0` on an RPC error, so `fetched` already
covers the fail-safe branch).  Mirrors src/balance.ts lines 83-97. -/
def checkBalance (now : Nat) (fetched : Int) (s : BMState) : Int × BMState :=
  match s.cachedBalance with
  | some b =>
      if now - s.cachedAt < CACHE_TTL_MS then (b, s)
      else (fetched, ⟨some fetched, now⟩)
  | none => (fetched, ⟨some fetched, now⟩)

/-- `isLow` / `isEmpty` flags of `buildInfo` (src/balance.ts 182-190). -/
def isLowBalance (balance : Int) : Bool := balance < LOW_BALANCE_MICROS

/-- `balance < BALANCE_THRESHOLDS.ZERO_THRESHOLD`. -/
def isEmptyBalance (balance : Int) : Bool := balance < ZERO_THRESHOLD

/-! ## IEEE-754 binary64 model for `formatUSDC` (src/balance.ts 151-155)

`formatUSDC` computes `Number(amountMicros) / 1_000_000` and renders it
with `toFixed(2)`.  Both steps are modelled exactly: conversion of an
integer to a double and the division are IEEE round-to-nearest,
ties-to-even; `toFixed(2)` picks the integer `n` minimising
`|n / 100 − x|` over the exact value `x` of the double, ties to the
larger `n` (ECMA-262).  The model covers normal (non-subnormal,
non-overflowing) magnitudes, which is where every program input lies. -/

/-- Round a rational to the nearest integer, ties to even. -/
def roundHalfEven (q : ℚ) : ℤ :=
  let f : ℤ := ⌊q⌋
  let r : ℚ := q - (f : ℚ)
  if r < 1/2 then f
  else if (1:ℚ)/2 < r then f + 1
  else if f % 2 = 0 then f else f + 1

/-- Round a positive rational to the nearest binary64 value
(53 significant bits), ties to even. -/
def doublePos (q : ℚ) : ℚ :=
  let n : ℤ := Int.log 2 q
  (roundHalfEven (q * 2 ^ (52 - n)) : ℚ) * 2 ^ (n - 52)

/-- Round a nonnegative rational to the nearest binary64 value.
(`formatUSDC` is only applied to nonnegative amounts: balances and
shortfalls; the nonpositive branch maps to `0`.) -/
def doubleRound (q : ℚ) : ℚ :=
  if q ≤ 0 then 0 else doublePos q

/-- ECMA `toFixed(2)`: the integer `n` with `n / 100` closest to `x`,
ties to the larger `n` — i.e. round half up at two decimals. -/
def toFixed2 (x : ℚ) : ℤ := ⌊x * 100 + 1/2⌋

/-- The number of cents `formatUSDC` renders for `amountMicros`:
`Number(amountMicros)` (one binary64 rounding), divided by `1_000_000`
(correctly-rounded binary64 division), then `toFixed(2)`. -/
def formatCents (amountMicros : Int) : ℤ :=
  toFixed2 (doubleRound (doubleRound (amountMicros : ℚ) / 1000000))

/-- Left-pad the cents part to two digits. -/
def pad2 (d : Nat) : String :=
  if d < 10 then "0" ++ toString d else toString d

/-- Render a (nonnegative) number of cents as `"$X.XX"`. -/
def renderCents (n : ℤ) : String :=
  "$" ++ toString (n / 100) ++ "." ++ pad2 (n % 100).toNat

/-- `formatUSDC(amountMicros)` (src/balance.ts 151-155): the string
`"$" + (Number(amountMicros) / 1_000_000).toFixed(2)`. -/
def formatUSDC (amountMicros : Int) : String :=
  renderCents (formatCents amountMicros)

/-- Claim-side rendering (from the spec's words, for comparison with
`formatUSDC`): exact division by `10^6` and rounding half away from
zero at two decimals, no floating point involved. -/
def halfAwayCents (amountMicros : Int) : ℤ :=
  if 0 ≤ amountMicros then ⌊(amountMicros : ℚ) / 10000 + 1/2⌋
  else -⌊((-amountMicros : Int) : ℚ) / 10000 + 1/2⌋

/-- Claim-side `format`: half-away-from-zero at two decimals. -/
def halfAwayFormat (amountMicros : Int) : String :=
  renderCents (halfAwayCents amountMicros)

/-! ## Payment-parameter cache (payment-cache.ts) -/

/-- `CachedPaymentParams`: the x402 terms remembered per endpoint. -/
structure CachedPaymentParams where
  payTo : String
  asset : String
  scheme : String
  network : String
  extraName : Option String
  extraVersion : Option String
  maxTimeoutSeconds : Option Nat
  cachedAt : Nat
deriving DecidableEq, Repr

/-- `PaymentCache` state: the backing map (association list keyed by
endpoint path) and the configured TTL (`DEFAULT_TTL_MS = 3_600_000`). -/
structure PCState where
  cache : List (String × CachedPaymentParams)
  ttlMs : Nat
deriving DecidableEq, Repr

/-- `new PaymentCache(ttlMs = 3_600_000)`. -/
def PCState.mk0 (ttlMs : Nat := 3600000) : PCState := ⟨[], ttlMs⟩

/-- Map lookup (JS `Map.get`). -/
def pcLookup (path : String) (m : List (String × CachedPaymentParams)) :
    Option CachedPaymentParams :=
  match m.find? (fun e => e.1 = path) with
  | some e => some e.2
  | none => none

/-- Map deletion (JS `Map.delete`). -/
def pcErase (path : String) (m : List (String × CachedPaymentParams)) :
    List (String × CachedPaymentParams) :=
  m.filter (fun e => e.1 ≠ path)

/-- `PaymentCache.get(endpointPath)` at time `now` (payment-cache.ts
lines 30-38): absent entries and entries whose age strictly exceeds
the TTL report absence; an expired entry is deleted on the way. -/
def pcGet (now : Nat) (path : String) (s : PCState) :
    Option CachedPaymentParams × PCState :=
  match pcLookup path s.cache with
  | none => (none, s)
  | some entry =>
      if now - entry.cachedAt > s.ttlMs then
        (none, { s with cache := pcErase path s.cache })
      else
        (some entry, s)

/-- `PaymentCache.set(endpointPath, params)` at time `now`. -/
def pcSet (now : Nat) (path : String) (p : CachedPaymentParams) (s : PCState) : PCState :=
  { s with cache := (path, { p with cachedAt := now }) :: pcErase path s.cache }

/-! ## Payment-protocol engine (src/x402.ts)

`payFetch` wraps an outbound HTTP call.  The network is modelled as an
oracle `net : Nat → Resp` giving the response to the i-th fetch
attempt of this call; the `x-payment-required` header is modelled as
the already-decoded challenge payload (absence of the field = absence
of the header; the base64/JSON decoding itself is not a subject of any
claim).  The engine returns the outcome together with the number of
fetch attempts it made and the payment-cache update it performed. -/

/-- One accepted payment option of a 402 challenge
(`PaymentOption` in src/x402.ts). -/
structure PaymentOption where
  scheme : String
  network : String
  amount : Option String
  maxAmountRequired : Option String
  asset : String
  payTo : String
  maxTimeoutSeconds : Option Nat
  extraName : Option String
  extraVersion : Option String
deriving DecidableEq, Repr

/-- Decoded `x-payment-required` payload (`PaymentRequired`). -/
structure PaymentRequired where
  accepts : List PaymentOption
deriving DecidableEq, Repr

/-- An upstream HTTP response as seen by `payFetch`: status plus the
(decoded) `x-payment-required` header, `none` when the header is
missing. -/
structure Resp where
  status : Nat
  paymentHeader : Option PaymentRequired
deriving DecidableEq, Repr

/-- JS truthiness of an optional string: `undefined` and `""` are
falsy. -/
def jsTruthy (s : Option String) : Bool :=
  match s with
  | none => false
  | some v => v ≠ ""

/-- JS `a || b` on optional strings (used for
`option.amount || option.maxAmountRequired`). -/
def jsOr (a b : Option String) : Option String :=
  if jsTruthy a then a else b

/-- Outcome of a `payFetch` call: the response returned to the caller,
or a thrown `Error` message. -/
inductive PayOutcome where
  | ok (r : Resp)
  | failed (msg : String)
deriving DecidableEq, Repr

/-- Whether the outcome is a thrown error. -/
def PayOutcome.isFailed : PayOutcome → Bool
  | .ok _ => false
  | .failed _ => true

/-- Full result of one `payFetch` call: outcome, number of upstream
fetch attempts issued, and the payment terms written to the
payment-parameter cache (`none` = no cache write). -/
structure PayResult where
  outcome : PayOutcome
  attempts : Nat
  cacheWrite : Option PaymentOption
deriving DecidableEq, Repr

/-- `handle402` (src/x402.ts lines 203-248): select the first accepted
option, require an amount, cache the terms, sign, and retry exactly
once, returning that retry's response as-is.  `attemptsSoFar` counts
the fetches already made by the caller; the retry is attempt
`attemptsSoFar` of the oracle. -/
def handle402 (ph : PaymentRequired) (net : Nat → Resp) (attemptsSoFar : Nat) : PayResult :=
  match ph.accepts.head? with
  | none => ⟨.failed "No payment options in 402 response", attemptsSoFar, none⟩
  | some option =>
      if jsTruthy (jsOr option.amount option.maxAmountRequired) then
        ⟨.ok (net attemptsSoFar), attemptsSoFar + 1, some option⟩
      else
        ⟨.failed "No amount in payment requirements", attemptsSoFar, none⟩

/-- `payFetch` (src/x402.ts lines 148-200).  `cachedTerms` is the
payment-cache entry for the endpoint path (already TTL-filtered by
`PaymentCache.get`), `preAuth` the caller's pre-authorisation
estimate.  When both are present the first attempt carries a
pre-signed payment; a `402` rejection of that attempt falls back to
`handle402` on the rejection's own challenge header, or is returned
as-is when the rejection carries no header.  Otherwise the first
attempt is unpaid and a `402` without header is a fatal protocol
error. -/
def payFetch (cachedTerms : Option CachedPaymentParams) (preAuth : Option String)
    (net : Nat → Resp) : PayResult :=
  if cachedTerms.isSome ∧ jsTruthy preAuth then
    let response := net 0
    if response.status ≠ 402 then ⟨.ok response, 1, none⟩
    else
      match response.paymentHeader with
      | some ph => handle402 ph net 1
      | none => ⟨.ok response, 1, none⟩
  else
    let response := net 0
    if response.status ≠ 402 then ⟨.ok response, 1, none⟩
    else
      match response.paymentHeader with
      | none => ⟨.failed "402 response missing x-payment-required header", 1, none⟩
      | some ph => handle402 ph net 1

/-! ## Static model table (src/models.ts) -/

/-- One `BlockRunModel` entry: the fields `estimateAmount` reads.
Prices are USD per 1M tokens **stored ×1000** (thousandths of a
dollar), which represents every price literal of src/models.ts
exactly and keeps the cost arithmetic in integers. -/
structure BlockRunModel where
  id : String
  inputPrice : Nat
  outputPrice : Nat
  maxOutput : Nat
deriving DecidableEq, Repr

/-- `BLOCKRUN_MODELS` (src/models.ts lines 24-288), restricted to the
fields the orchestrator reads; prices ×1000 (so `0.28` is `280`). -/
def BLOCKRUN_MODELS : List BlockRunModel := [
  ⟨"blockrun/auto", 0, 0, 128000⟩,
  ⟨"openai/gpt-5.2", 1750, 14000, 128000⟩,
  ⟨"openai/gpt-5-mini", 250, 2000, 65536⟩,
  ⟨"openai/gpt-5-nano", 50, 400, 32768⟩,
  ⟨"openai/gpt-5.2-pro", 21000, 168000, 128000⟩,
  ⟨"openai/gpt-4.1", 2000, 8000, 16384⟩,
  ⟨"openai/gpt-4.1-mini", 400, 1600, 16384⟩,
  ⟨"openai/gpt-4.1-nano", 100, 400, 16384⟩,
  ⟨"openai/gpt-4o", 2500, 10000, 16384⟩,
  ⟨"openai/gpt-4o-mini", 150, 600, 16384⟩,
  ⟨"openai/o1", 15000, 60000, 100000⟩,
  ⟨"openai/o1-mini", 1100, 4400, 65536⟩,
  ⟨"openai/o3", 2000, 8000, 100000⟩,
  ⟨"openai/o3-mini", 1100, 4400, 65536⟩,
  ⟨"openai/o4-mini", 1100, 4400, 65536⟩,
  ⟨"anthropic/claude-haiku-4.5", 1000, 5000, 8192⟩,
  ⟨"anthropic/claude-sonnet-4", 3000, 15000, 64000⟩,
  ⟨"anthropic/claude-opus-4", 15000, 75000, 32000⟩,
  ⟨"anthropic/claude-opus-4.5", 15000, 75000, 32000⟩,
  ⟨"google/gemini-3-pro-preview", 2000, 12000, 65536⟩,
  ⟨"google/gemini-2.5-pro", 1250, 10000, 65536⟩,
  ⟨"google/gemini-2.5-flash", 150, 600, 65536⟩,
  ⟨"deepseek/deepseek-chat", 280, 420, 8192⟩,
  ⟨"deepseek/deepseek-reasoner", 280, 420, 8192⟩,
  ⟨"moonshot/kimi-k2.5", 600, 2500, 8192⟩,
  ⟨"xai/grok-3", 3000, 15000, 16384⟩,
  ⟨"xai/grok-3-fast", 5000, 25000, 16384⟩,
  ⟨"xai/grok-3-mini", 300, 500, 16384⟩]

/-- `BLOCKRUN_MODELS.find((m) => m.id === modelId)`. -/
def findModel (modelId : String) : Option BlockRunModel :=
  BLOCKRUN_MODELS.find? (fun m => m.id = modelId)

/-! ## Cost estimation and the proxy orchestrator (src/proxy.ts) -/

/-- `estimateAmount(modelId, bodyLength, maxTokens)` (src/proxy.ts):
`undefined` for a model id absent from the static table; otherwise
`max(100, ceil(costUsd * 1.2 * 1e6))` micros over a rough
4-chars-per-token input estimate.  With prices stored ×1000,
`costUsd * 1.2 * 1e6 = (inTok*ip + outTok*op) * 12 / 10000` exactly,
so the ceiling is the integer `(scaled*12 + 9999) / 10000`.  (The
source computes the dollar products in binary64; the exact integer
value is used here, and no claim depends on the sub-micro
difference.) -/
def estimateAmount (modelId : String) (bodyLength : Nat) (maxTokens : Nat) : Option Nat :=
  match findModel modelId with
  | none => none
  | some m =>
      let estimatedInputTokens : Nat := (bodyLength + 3) / 4
      let estimatedOutputTokens : Nat :=
        if maxTokens ≠ 0 then maxTokens
        else if m.maxOutput ≠ 0 then m.maxOutput else 4096
      let scaled : Nat :=
        (estimatedInputTokens * m.inputPrice + estimatedOutputTokens * m.outputPrice) * 12
      some (max 100 ((scaled + 9999) / 10000))

/-- The fields of a parsed chat-completion JSON body that the
orchestrator reads (src/proxy.ts lines 528-592).  `model = ""` and
`maxTokensField = 0` stand for absent fields (both are falsy in JS and
defaulted by `|| ...`). -/
structure ChatBody where
  model : String
  stream : Bool
  maxTokensField : Nat
deriving DecidableEq, Repr

/-- JS `String.prototype.toLowerCase` restricted to the ASCII range
model ids live in. -/
def jsToLower (s : String) : String :=
  String.mk (s.data.map Char.toLower)

/-- JS `String.prototype.trim`: strip leading and trailing
whitespace. -/
def jsTrim (s : String) : String :=
  String.mk (((s.data.dropWhile Char.isWhitespace).reverse.dropWhile
    Char.isWhitespace).reverse)

/-- The effective model id of a parsed request (src/proxy.ts lines
543-576): the router's choice when the trimmed, lowercased model name
is the auto sentinel (`"blockrun/auto"` or its short form `"auto"`),
the request's own model otherwise. -/
def modelIdOf (b : ChatBody) (routedModel : String) : String :=
  let normalizedModel := jsToLower (jsTrim b.model)
  if normalizedModel = "blockrun/auto" ∨ normalizedModel = "auto" then routedModel
  else b.model

/-- `(parsed.max_tokens as number) || 4096` (src/proxy.ts line 533). -/
def maxTokensOf (b : ChatBody) : Nat :=
  if b.maxTokensField ≠ 0 then b.maxTokensField else 4096

/-- A completed deduplication entry as replayed to a second caller:
response status and body bytes (bytes abstracted as a string). -/
structure DedupEntry where
  status : Nat
  body : String
deriving DecidableEq, Repr

/-- Observable side effects of one `proxyRequest` run, in program
order.  `upstreamCall` records the `stream` field of the forwarded
body (`none` when the body was not parsed and is forwarded verbatim)
and the attached pre-auth estimate (`none` = no pre-auth, hence no
payment signed before the upstream's challenge). -/
inductive Ev where
  | markInflight
  | removeInflight
  | balanceCheck
  | lowBalanceWarn
  | upstreamCall (sentStream : Option Bool) (preAuth : Option Nat)
deriving DecidableEq, Repr

/-- One SSE write emitted to a streaming caller, structured by kind
(the JSON serialisation of each chunk is not a subject of any claim). -/
inductive SSEWrite where
  | heartbeat
  | roleChunk (idx : Nat) (role : String)
  | contentChunk (idx : Nat) (content : String)
  | finishChunk (idx : Nat) (reason : String)
  | upstreamErrorEvent (message : String) (status : Nat)
  | rawChunk (s : String)
  | doneMarker
deriving DecidableEq, Repr

/-- Whether an SSE write is a content-delta chunk. -/
def isContentChunk : SSEWrite → Bool
  | .contentChunk _ _ => true
  | _ => false

/-- One choice of the upstream's (non-streaming) chat-completion JSON
result, restricted to the fields the re-chunking transform reads. -/
structure UpChoice where
  idx : Option Nat
  messageRole : Option String
  messageContent : Option String
  deltaRole : Option String
  deltaContent : Option String
  finishReason : Option String
deriving DecidableEq, Repr

/-- The upstream JSON result, restricted to the fields the transform
reads (`choices` is `none` when absent or not an array). -/
structure UpstreamJson where
  choices : Option (List UpChoice)
deriving DecidableEq, Repr

/-- What the orchestrator sends upstream (the parts claims are
about): the effective model id, the body's `stream` field after
forcing (`none` for an unparsed body forwarded verbatim), and the
pre-auth estimate. -/
structure UpReq where
  model : String
  streamField : Option Bool
  preAuth : Option Nat
deriving DecidableEq, Repr

/-- The upstream response as the orchestrator consumes it: status,
the body parsed as JSON (`none` = parse failure), and the raw text
(used for the parse-failure and upstream-error paths). -/
structure UpResp where
  status : Nat
  jsonBody : Option UpstreamJson
  rawText : String
deriving DecidableEq, Repr

/-- `stripThinkingTokens` (src/proxy.ts lines 261-272): the early
return on the empty string is explicit in the source; the four regex
replacement passes are abstracted as `core`. -/
def stripThinkingTokens (core : String → String) (content : String) : String :=
  if content = "" then content else core content

/-- The SSE writes for one upstream choice (src/proxy.ts lines
823-858): a role-delta chunk, a content-delta chunk only when the
thinking-stripped content is nonempty (`if (content)`), and a
finish-reason chunk. -/
def choiceWrites (core : String → String) (c : UpChoice) : List SSEWrite :=
  let rawContent := ((c.messageContent).orElse (fun _ => c.deltaContent)).getD ""
  let content := stripThinkingTokens core rawContent
  let role := ((c.messageRole).orElse (fun _ => c.deltaRole)).getD "assistant"
  let idx := (c.idx).getD 0
  [SSEWrite.roleChunk idx role]
    ++ (if content ≠ "" then [SSEWrite.contentChunk idx content] else [])
    ++ [SSEWrite.finishChunk idx ((c.finishReason).getD "stop")]

/-- The SSE writes after the upstream call on the streaming path
(src/proxy.ts lines 758-871): a non-200 upstream becomes an error
event plus the terminator; a 200 JSON result is re-chunked per choice
and terminated; a 200 non-JSON body is forwarded as one raw chunk. -/
def streamWrites (core : String → String) (u : UpResp) : List SSEWrite :=
  if u.status ≠ 200 then
    [SSEWrite.upstreamErrorEvent u.rawText u.status, SSEWrite.doneMarker]
  else
    match u.jsonBody with
    | none => [SSEWrite.rawChunk u.rawText, SSEWrite.doneMarker]
    | some rsp =>
        (match rsp.choices with
         | some cs => cs.flatMap (choiceWrites core)
         | none => []) ++ [SSEWrite.doneMarker]

/-- The response delivered to the caller. -/
inductive ClientResp where
  | replayed (status : Nat) (body : String)
  | sse (events : List SSEWrite)
  | passthrough (status : Nat) (body : String)
deriving DecidableEq, Repr

/-- The typed affordability errors (errors.ts): the message strings
are exactly the template literals of the constructors. -/
inductive PErr where
  | emptyWallet (walletAddress : String)
  | insufficientFunds (currentBalanceUSD requiredUSD walletAddress : String)
deriving DecidableEq, Repr

/-- `Error.message` of the typed errors (errors.ts lines 66-88). -/
def PErr.message : PErr → String
  | .emptyWallet a => "No USDC balance. Fund wallet to use ClawRouter: " ++ a
  | .insufficientFunds c r a =>
      "Insufficient USDC balance. Current: " ++ c ++ ", Required: " ++ r ++
      ". Fund wallet: " ++ a

/-- Outcome of one `proxyRequest` run: a response, or a thrown error
(caught by the server wrapper). -/
inductive PResult where
  | ok (r : ClientResp)
  | thrown (e : PErr)
deriving DecidableEq, Repr

/-- `PResult.isOk`. -/
def PResult.isOk : PResult → Bool
  | .ok _ => true
  | .thrown _ => false

/-- The per-request inputs of `proxyRequest`: whether the URL is a
chat-completion path, the parsed body (`none` = empty body or JSON
parse failure, in which case the body is forwarded verbatim), the
outbound body length, the deduplicator's answers for this body's hash
(`dedupCached` = completed entry within its window, `dedupInflight` =
the result the in-flight promise resolves to), the balance
`checkBalance()` yields at the gate, and the wallet address. -/
structure ProxyIn where
  isChatCompletion : Bool
  parsed : Option ChatBody
  bodyLen : Nat
  dedupCached : Option DedupEntry
  dedupInflight : Option DedupEntry
  balance : Int
  walletAddress : String
deriving DecidableEq, Repr

/-- The upstream leg of `proxyRequest` (src/proxy.ts lines 666-913):
record the upstream call, then either re-chunk into SSE (streaming,
after the early header flush and first heartbeat) or pass the
response through. -/
def proxyUpstream (isStreaming : Bool) (modelId : String) (sentStream : Option Bool)
    (preAuth : Option Nat) (tr : List Ev) (upstream : UpReq → UpResp)
    (core : String → String) : List Ev × PResult :=
  let u := upstream ⟨modelId, sentStream, preAuth⟩
  let tr := tr ++ [Ev.upstreamCall sentStream preAuth]
  if isStreaming then
    (tr, .ok (.sse (SSEWrite.heartbeat :: streamWrites core u)))
  else
    (tr, .ok (.passthrough u.status u.rawText))

/-- `proxyRequest` (src/proxy.ts lines 495-956) for one request:
parse-derived flags, dedup fast paths, in-flight registration, the
affordability gate, then the upstream leg.  `routedModel` is the model
id the router returns when the request's model is the auto sentinel
(the router lives outside the modelled sources and is a parameter
here; no claim depends on its internals).  Compared with the source,
the upstream call is a total oracle: payment-protocol exceptions and
timeouts are out of scope of the claims settled over this function. -/
def proxyRequest (inp : ProxyIn) (routedModel : String) (upstream : UpReq → UpResp)
    (core : String → String) : List Ev × PResult :=
  let parsedEff := if inp.isChatCompletion then inp.parsed else none
  let isStreaming := match parsedEff with
    | some b => b.stream
    | none => false
  let maxTokens : Nat := match parsedEff with
    | some b => maxTokensOf b
    | none => 4096
  let modelId : String := match parsedEff with
    | some b => modelIdOf b routedModel
    | none => ""
  let sentStream : Option Bool := match parsedEff with
    | some _ => some false
    | none => none
  match inp.dedupCached with
  | some e => ([], .ok (.replayed e.status e.body))
  | none =>
  match inp.dedupInflight with
  | some e => ([], .ok (.replayed e.status e.body))
  | none =>
  let tr := [Ev.markInflight]
  if modelId ≠ "" then
    match estimateAmount modelId inp.bodyLen maxTokens with
    | some est =>
        let tr := tr ++ [Ev.balanceCheck]
        if isEmptyBalance inp.balance then
          (tr ++ [Ev.removeInflight], .thrown (.emptyWallet inp.walletAddress))
        else if inp.balance < (est : Int) then
          (tr ++ [Ev.removeInflight],
           .thrown (.insufficientFunds (formatUSDC inp.balance) (formatUSDC (est : Int))
             inp.walletAddress))
        else
          let tr := tr ++ (if isLowBalance inp.balance then [Ev.lowBalanceWarn] else [])
          proxyUpstream isStreaming modelId sentStream (some est) tr upstream core
    | none => proxyUpstream isStreaming modelId sentStream none tr upstream core
  else
    proxyUpstream isStreaming modelId sentStream none tr upstream core

/-! ## The HTTP server wrapper (src/proxy.ts lines 392-457) -/

/-- `JSON.stringify({status:"ok", wallet})` of the health response. -/
def healthBody (walletAddress : String) : String :=
  "\x7b\"status\":\"ok\",\"wallet\":\"" ++ walletAddress ++ "\"\x7d"

/-- `JSON.stringify({error:{message:"Proxy error: "+msg,
type:"proxy_error"}})` of the 502 envelope (the error messages
involved contain no characters `JSON.stringify` escapes). -/
def proxyErrorEnvelope (msg : String) : String :=
  "\x7b\"error\":\x7b\"message\":\"Proxy error: " ++ msg ++
  "\",\"type\":\"proxy_error\"\x7d\x7d"

/-- What the server writes back on one connection. -/
inductive HttpOut where
  | jsonOut (status : Nat) (body : String)
  | sseOut (events : List SSEWrite)
deriving DecidableEq, Repr

/-- `url.startsWith("/v1")`. -/
def startsWithV1 (url : String) : Bool :=
  match url.data with
  | '/' :: 'v' :: '1' :: _ => true
  | _ => false

/-- The connection handler (src/proxy.ts lines 392-457): the health
route, the 404 route, and the `/v1` proxy route with its catch
converting a thrown error into a 502 `proxy_error` envelope (the
orchestrator model throws only before response headers are sent, so
the headers-sent SSE error branch of the catch is unreachable here). -/
def handleRequest (url : String) (inp : ProxyIn) (routedModel : String)
    (upstream : UpReq → UpResp) (core : String → String) : HttpOut :=
  if url = "/health" then
    .jsonOut 200 (healthBody inp.walletAddress)
  else if ¬ startsWithV1 url then
    .jsonOut 404 "\x7b\"error\":\"Not found\"\x7d"
  else
    match proxyRequest inp routedModel upstream core with
    | (_, .ok (.sse events)) => .sseOut events
    | (_, .ok (.replayed status body)) => .jsonOut status body
    | (_, .ok (.passthrough status body)) => .jsonOut status body
    | (_, .thrown e) => .jsonOut 502 (proxyErrorEnvelope e.message)

/-! ## Two concurrent identical requests through the deduplicator

Modelled from the spec: the `RequestDeduplicator` component
(dedup.ts, not among the modelled sources) per §4.4 — `hash` is a
deterministic content digest (so two identical bodies share one key),
`markInflight` registers a key with an attached completion signal a
second caller awaits, `getCached` replays a completed entry within its
visibility window, and `complete` resolves the signal and stores the
entry.  The per-request control flow around those operations is the
orchestrator's (src/proxy.ts lines 594-615 and 874-912).

JS request handlers interleave only at `await` points; the block
`getCached → getInflight → markInflight` contains none, so it is one
atomic step, and the upstream call plus `complete`-and-respond is the
second step of the winning request.  Time is frozen across the
machine (both requests run inside the completed entry's visibility
window, which is the claim's premise). -/

/-- Where one of the two concurrent requests stands. -/
inductive Phase where
  | start
  | running
  | waiting
  | finished (e : DedupEntry)
deriving DecidableEq, Repr

/-- Modelled from the spec: joint state of two concurrent requests
with identical bodies (hence one shared dedup key) — the two request
phases, whether the shared key is marked in-flight, the completed
entry for the key, and the number of upstream calls issued so far. -/
structure Sys where
  ph1 : Phase
  ph2 : Phase
  inflight : Bool
  completedEntry : Option DedupEntry
  upcalls : Nat
deriving DecidableEq, Repr

/-- Both requests received, deduplicator empty. -/
def Sys.init : Sys := ⟨.start, .start, false, none, 0⟩

/-- One atomic step of the request in phase `ph` (the other request's
phase is untouched): the dedup-check block (replay a completed entry /
await the in-flight promise / mark in-flight and become the runner),
the runner's upstream-call-and-complete block, or a waiter consuming
the resolved promise.  Returns the request's next phase and the
updated shared state; an unresolved waiter and a finished request do
not step. -/
def stepReq (up : DedupEntry) (ph : Phase) (s : Sys) : Phase × Sys :=
  match ph with
  | .start =>
      match s.completedEntry with
      | some e => (.finished e, s)
      | none =>
          if s.inflight then (.waiting, s)
          else (.running, { s with inflight := true })
  | .running =>
      (.finished up,
       { s with inflight := false, completedEntry := some up, upcalls := s.upcalls + 1 })
  | .waiting =>
      match s.completedEntry with
      | some e => (.finished e, s)
      | none => (.waiting, s)
  | .finished e => (.finished e, s)

/-- Scheduler step: `true` runs request 1, `false` runs request 2. -/
def stepSys (up : DedupEntry) (choice : Bool) (s : Sys) : Sys :=
  if choice then
    let (ph, s') := stepReq up s.ph1 s
    { s' with ph1 := ph }
  else
    let (ph, s') := stepReq up s.ph2 s
    { s' with ph2 := ph }

/-- Run a whole schedule from a state. -/
def execSys (up : DedupEntry) (sched : List Bool) (s : Sys) : Sys :=
  sched.foldl (fun acc c => stepSys up c acc) s

/-- Invariant of the two-request machine: either nothing has happened,
or exactly one request holds the in-flight marker and no upstream call
has completed, or the single upstream call has completed and every
request is replaying (or has replayed) its entry. -/
def SysInv (up : DedupEntry) (s : Sys) : Prop :=
  s = Sys.init ∨
  (s.inflight = true ∧ s.completedEntry = none ∧ s.upcalls = 0 ∧
    ((s.ph1 = .running ∧ (s.ph2 = .start ∨ s.ph2 = .waiting)) ∨
     (s.ph2 = .running ∧ (s.ph1 = .start ∨ s.ph1 = .waiting)))) ∨
  (s.inflight = false ∧ s.completedEntry = some up ∧ s.upcalls = 1 ∧
    (s.ph1 = .start ∨ s.ph1 = .waiting ∨ s.ph1 = .finished up) ∧
    (s.ph2 = .start ∨ s.ph2 = .waiting ∨ s.ph2 = .finished up))

end ClawRouter

namespace ClawRouter

/-! # Theorems -/

/-! ## C5 — optimistic deduction -/

/-- C5 counterexample: `deductEstimated` is **not** a no-op on a stale
cache entry.  At time `100000` the entry cached at time `0` is well
past the 30-second TTL, yet `deductEstimated(500)` still lowers the
cached value. -/
theorem deductEstimated_stale_deducts :
    CACHE_TTL_MS ≤ 100000 - (BMState.mk (some 1000000) 0).cachedAt ∧
    deductEstimated 500 ⟨some 1000000, 0⟩ = ⟨some 999500, 0⟩ ∧
    (⟨some 999500, 0⟩ : BMState) ≠ (⟨some 1000000, 0⟩ : BMState) := by
  decide

/-- C5 (amended): `deductEstimated` never drives the cached balance
below zero (for cached balance `B` and deduction `D > B` the value
stays `B`), and is a no-op when the cache is empty.  A stale entry
(older than the 30-second TTL) is still decremented, but the next
`checkBalance` refetches regardless, so the decremented stale value is
never served: `checkBalance` at any later time gives the same result
with or without the deduction. -/
theorem deductEstimated_bookkeeping (s : BMState) (b amt : Int) :
    (s.cachedBalance = some b → 0 ≤ b → 0 ≤ amt →
      ∃ b', (deductEstimated amt s).cachedBalance = some b' ∧ 0 ≤ b') ∧
    (s.cachedBalance = some b → b < amt → deductEstimated amt s = s) ∧
    (s.cachedBalance = none → deductEstimated amt s = s) ∧
    (∀ now fut fetched, CACHE_TTL_MS ≤ now - s.cachedAt → now ≤ fut →
      checkBalance fut fetched (deductEstimated amt s) = checkBalance fut fetched s) := by
  refine ⟨?_, ?_, ?_, ?_⟩
  · intro h hb ha
    simp only [deductEstimated, h]
    by_cases hge : b ≥ amt
    · rw [if_pos hge]
      exact ⟨b - amt, rfl, by linarith⟩
    · rw [if_neg hge]
      exact ⟨b, h, hb⟩
  · intro h hlt
    simp only [deductEstimated, h]
    rw [if_neg (not_le.mpr hlt)]
  · intro h
    simp only [deductEstimated, h]
  · intro now fut fetched hstale hle
    have httl : CACHE_TTL_MS = 30000 := rfl
    have hfut : ¬ (fut - s.cachedAt < CACHE_TTL_MS) := by
      rw [httl] at hstale ⊢
      omega
    cases hsb : s.cachedBalance with
    | none =>
        simp only [deductEstimated, hsb]
    | some b0 =>
        simp only [deductEstimated, hsb]
        by_cases hge : b0 ≥ amt
        · rw [if_pos hge]
          simp [checkBalance, hsb, hfut]
        · rw [if_neg hge]

/-- C5 witness for `deductEstimated_bookkeeping`: a covered deduction
stays nonnegative, an over-large deduction is a no-op, and a stale
deduction is invisible to the next `checkBalance`. -/
theorem deductEstimated_bookkeeping_witness :
    (∃ b', (deductEstimated 30 ⟨some 100, 5⟩).cachedBalance = some b' ∧ 0 ≤ b') ∧
    deductEstimated 200 ⟨some 100, 5⟩ = ⟨some 100, 5⟩ ∧
    checkBalance 70000 777 (deductEstimated 30 ⟨some 100, 5⟩) =
      checkBalance 70000 777 ⟨some 100, 5⟩ :=
  ⟨(deductEstimated_bookkeeping ⟨some 100, 5⟩ 100 30).1 rfl (by decide) (by decide),
   (deductEstimated_bookkeeping ⟨some 100, 5⟩ 100 200).2.1 rfl (by decide),
   (deductEstimated_bookkeeping ⟨some 100, 5⟩ 100 30).2.2.2 40000 70000 777
     (by decide) (by decide)⟩

/-! ## C6 — payment-term cache TTL -/

/-- Looking a path up after erasing it finds nothing. -/
theorem pcLookup_erase (path : String) (m : List (String × CachedPaymentParams)) :
    pcLookup path (pcErase path m) = none := by
  unfold pcLookup pcErase
  have hnone : List.find? (fun e => decide (e.1 = path))
      (List.filter (fun e => decide (e.1 ≠ path)) m) = none := by
    rw [List.find?_eq_none]
    intro x hx
    have hmem := (List.mem_filter.mp hx).2
    simp at hmem ⊢
    exact hmem
  rw [hnone]

/-- C6: a payment-term entry whose age strictly exceeds the TTL is
treated as absent by `get` — it is evicted from the backing map and
absence is reported — while an entry within the TTL is returned
exactly as stored; and whatever `get` returns is never older than the
TTL. -/
theorem pcGet_ttl_contract (now : Nat) (path : String) (s : PCState)
    (e : CachedPaymentParams) (hfound : pcLookup path s.cache = some e) :
    (now - e.cachedAt > s.ttlMs →
      pcGet now path s = (none, { s with cache := pcErase path s.cache }) ∧
      pcLookup path (pcGet now path s).2.cache = none) ∧
    (now - e.cachedAt ≤ s.ttlMs → pcGet now path s = (some e, s)) ∧
    (∀ r, (pcGet now path s).1 = some r → now - r.cachedAt ≤ s.ttlMs) := by
  refine ⟨?_, ?_, ?_⟩
  · intro hexp
    have hgot : pcGet now path s = (none, { s with cache := pcErase path s.cache }) := by
      simp only [pcGet, hfound]
      rw [if_pos hexp]
    refine ⟨hgot, ?_⟩
    rw [hgot]
    exact pcLookup_erase path s.cache
  · intro hfresh
    simp only [pcGet, hfound]
    rw [if_neg (not_lt.mpr hfresh)]
  · intro r hr
    simp only [pcGet, hfound] at hr
    by_cases hexp : now - e.cachedAt > s.ttlMs
    · rw [if_pos hexp] at hr
      exact absurd hr (by simp)
    · rw [if_neg hexp] at hr
      have : e = r := by simpa using hr
      subst this
      exact not_lt.mp hexp

/-- C6 witness: an entry cached at time `0` with a 1-hour TTL is
evicted at `now = 4000000` and served at `now = 1000`. -/
theorem pcGet_ttl_contract_witness :
    pcGet 4000000 "/v1/chat" ⟨[("/v1/chat", ⟨"pay", "usdc", "exact", "base", none, none, none, 0⟩)], 3600000⟩ =
      (none, ⟨[], 3600000⟩) ∧
    pcGet 1000 "/v1/chat" ⟨[("/v1/chat", ⟨"pay", "usdc", "exact", "base", none, none, none, 0⟩)], 3600000⟩ =
      (some ⟨"pay", "usdc", "exact", "base", none, none, none, 0⟩,
       ⟨[("/v1/chat", ⟨"pay", "usdc", "exact", "base", none, none, none, 0⟩)], 3600000⟩) := by
  have h1 := (pcGet_ttl_contract 4000000 "/v1/chat"
    ⟨[("/v1/chat", ⟨"pay", "usdc", "exact", "base", none, none, none, 0⟩)], 3600000⟩
    ⟨"pay", "usdc", "exact", "base", none, none, none, 0⟩ (by decide)).1 (by decide)
  have h2 := (pcGet_ttl_contract 1000 "/v1/chat"
    ⟨[("/v1/chat", ⟨"pay", "usdc", "exact", "base", none, none, none, 0⟩)], 3600000⟩
    ⟨"pay", "usdc", "exact", "base", none, none, none, 0⟩ (by decide)).2.1 (by decide)
  refine ⟨?_, h2⟩
  rw [h1.1]
  decide

/-! ## C2 — at most two upstream attempts per `payFetch` call -/

/-- `handle402` issues exactly one more fetch at most. -/
theorem handle402_attempts_le (ph : PaymentRequired) (net : Nat → Resp) (k : Nat) :
    (handle402 ph net k).attempts ≤ k + 1 := by
  unfold handle402
  cases ph.accepts.head? with
  | none => exact Nat.le_succ k
  | some opt =>
      dsimp only
      by_cases h : jsTruthy (jsOr opt.amount opt.maxAmountRequired) = true
      · rw [if_pos h]
      · rw [if_neg h]
        exact Nat.le_succ k

/-- C2: one `payFetch` call issues at most two upstream attempts; and
whenever the first attempt comes back 402 with a challenge whose first
option carries an amount — this covers both the normal path and a
rejected pre-auth falling back on the rejection's own challenge — the
result is exactly the second attempt's response, returned as-is (in
particular a second 402 is surfaced, not retried), after exactly two
attempts. -/
theorem payFetch_bounded_retry (cached : Option CachedPaymentParams)
    (preAuth : Option String) (net : Nat → Resp) :
    (payFetch cached preAuth net).attempts ≤ 2 ∧
    (∀ ph option, (net 0).status = 402 → (net 0).paymentHeader = some ph →
      ph.accepts.head? = some option →
      jsTruthy (jsOr option.amount option.maxAmountRequired) = true →
      payFetch cached preAuth net = ⟨.ok (net 1), 2, some option⟩) := by
  constructor
  · unfold payFetch
    by_cases hp : cached.isSome ∧ jsTruthy preAuth
    · rw [if_pos hp]
      by_cases h402 : (net 0).status ≠ 402
      · rw [if_pos h402]
        exact Nat.le_succ 1
      · rw [if_neg h402]
        cases hh : (net 0).paymentHeader with
        | some ph => exact handle402_attempts_le ph net 1
        | none => exact Nat.le_succ 1
    · rw [if_neg hp]
      by_cases h402 : (net 0).status ≠ 402
      · rw [if_pos h402]
        exact Nat.le_succ 1
      · rw [if_neg h402]
        cases hh : (net 0).paymentHeader with
        | none => exact Nat.le_succ 1
        | some ph => exact handle402_attempts_le ph net 1
  · intro ph option h402 hhdr hopt hamt
    unfold payFetch handle402
    by_cases hp : cached.isSome ∧ jsTruthy preAuth
    · rw [if_pos hp]
      simp [h402, hhdr, hopt, hamt]
    · rw [if_neg hp]
      simp [h402, hhdr, hopt, hamt]

/-- C2 witness: a concrete run where the first attempt is a 402
challenge and the second is another 402, surfaced as-is after exactly
two attempts. -/
theorem payFetch_bounded_retry_witness :
    (payFetch none none (fun n => if n = 0
        then ⟨402, some ⟨[⟨"exact", "base", some "5", none, "usdc", "pay", none, none, none⟩]⟩⟩
        else ⟨402, none⟩)).attempts ≤ 2 ∧
    payFetch none none (fun n => if n = 0
        then ⟨402, some ⟨[⟨"exact", "base", some "5", none, "usdc", "pay", none, none, none⟩]⟩⟩
        else ⟨402, none⟩) =
      ⟨.ok ⟨402, none⟩, 2, some ⟨"exact", "base", some "5", none, "usdc", "pay", none, none, none⟩⟩ := by
  have h := payFetch_bounded_retry none none (fun n => if n = 0
    then ⟨402, some ⟨[⟨"exact", "base", some "5", none, "usdc", "pay", none, none, none⟩]⟩⟩
    else ⟨402, none⟩)
  exact ⟨h.1, h.2 ⟨[⟨"exact", "base", some "5", none, "usdc", "pay", none, none, none⟩]⟩
    ⟨"exact", "base", some "5", none, "usdc", "pay", none, none, none⟩
    (by decide) (by decide) (by decide) (by decide)⟩

/-! ## C3 — fatal protocol errors on malformed 402 responses -/

/-- C3 counterexample: in the pre-auth path a 402 response without the
`x-payment-required` header is **returned to the caller**, not turned
into a fatal protocol error (src/x402.ts lines 179-184). -/
theorem payFetch_preauth_402_no_header_returned :
    payFetch (some ⟨"pay", "usdc", "exact", "base", none, none, none, 0⟩) (some "100")
        (fun _ => ⟨402, none⟩) = ⟨.ok ⟨402, none⟩, 1, none⟩ ∧
    (payFetch (some ⟨"pay", "usdc", "exact", "base", none, none, none, 0⟩) (some "100")
        (fun _ => ⟨402, none⟩)).outcome.isFailed = false := by
  decide

/-- C3 (amended): on the normal (non-pre-auth) path a 402 response
missing the payment-challenge header is a fatal protocol error; on the
pre-auth path such a rejection is returned as-is instead; and in
either path, when the challenge's first accepted option carries
neither an `amount` nor a `maxAmountRequired` field the call fails
with the fatal "no amount" protocol error. -/
theorem payFetch_protocol_errors (cached : Option CachedPaymentParams)
    (preAuth : Option String) (net : Nat → Resp) :
    (¬ (cached.isSome ∧ jsTruthy preAuth) → (net 0).status = 402 →
      (net 0).paymentHeader = none →
      payFetch cached preAuth net =
        ⟨.failed "402 response missing x-payment-required header", 1, none⟩) ∧
    ((cached.isSome ∧ jsTruthy preAuth) → (net 0).status = 402 →
      (net 0).paymentHeader = none →
      payFetch cached preAuth net = ⟨.ok (net 0), 1, none⟩) ∧
    (∀ ph option, (net 0).status = 402 → (net 0).paymentHeader = some ph →
      ph.accepts.head? = some option →
      option.amount = none → option.maxAmountRequired = none →
      payFetch cached preAuth net =
        ⟨.failed "No amount in payment requirements", 1, none⟩) := by
  refine ⟨?_, ?_, ?_⟩
  · intro hp h402 hhdr
    simp [payFetch, hp, h402, hhdr]
  · intro hp h402 hhdr
    simp [payFetch, hp, h402, hhdr]
  · intro ph option h402 hhdr hopt ham hmax
    by_cases hp : cached.isSome ∧ jsTruthy preAuth <;>
      simp [payFetch, handle402, hp, h402, hhdr, hopt, ham, hmax, jsOr, jsTruthy]

/-- C3 witness for `payFetch_protocol_errors`: the normal-path missing
header is fatal; the pre-auth-path missing header is returned; a
challenge option without any amount field is fatal. -/
theorem payFetch_protocol_errors_witness :
    payFetch none none (fun _ => ⟨402, none⟩) =
      ⟨.failed "402 response missing x-payment-required header", 1, none⟩ ∧
    payFetch (some ⟨"pay", "usdc", "exact", "base", none, none, none, 0⟩) (some "9")
        (fun _ => ⟨402, none⟩) = ⟨.ok ⟨402, none⟩, 1, none⟩ ∧
    payFetch none none
        (fun _ => ⟨402, some ⟨[⟨"exact", "base", none, none, "usdc", "pay", none, none, none⟩]⟩⟩) =
      ⟨.failed "No amount in payment requirements", 1, none⟩ :=
  ⟨(payFetch_protocol_errors none none (fun _ => ⟨402, none⟩)).1
      (by decide) (by decide) (by decide),
   (payFetch_protocol_errors (some ⟨"pay", "usdc", "exact", "base", none, none, none, 0⟩)
      (some "9") (fun _ => ⟨402, none⟩)).2.1 (by decide) (by decide) (by decide),
   (payFetch_protocol_errors none none
      (fun _ => ⟨402, some ⟨[⟨"exact", "base", none, none, "usdc", "pay", none, none, none⟩]⟩⟩)).2.2
      ⟨[⟨"exact", "base", none, none, "usdc", "pay", none, none, none⟩]⟩
      ⟨"exact", "base", none, none, "usdc", "pay", none, none, none⟩
      (by decide) (by decide) (by decide) (by decide) (by decide)⟩

/-! ## C10 — unknown model ids silently skip the affordability gate -/

/-- `estimateAmount` yields nothing for a model id absent from the
static table. -/
theorem estimateAmount_eq_none (modelId : String) (bodyLength maxTokens : Nat)
    (h : findModel modelId = none) :
    estimateAmount modelId bodyLength maxTokens = none := by
  simp [estimateAmount, h]

/-- C10: for a parsed chat-completion request whose (possibly routed)
model id is not in the static model table, the cost estimator returns
no estimate and the orchestrator goes straight from the in-flight mark
to the upstream call: no balance check happens, no pre-auth is
attached (`none` in the `upstreamCall` event), and no affordability
error can be raised (the outcome is a response, not a throw). -/
theorem unknown_model_skips_gate (inp : ProxyIn) (b : ChatBody) (routedModel : String)
    (upstream : UpReq → UpResp) (core : String → String)
    (hchat : inp.isChatCompletion = true) (hparsed : inp.parsed = some b)
    (hnc : inp.dedupCached = none) (hni : inp.dedupInflight = none)
    (hunknown : findModel (modelIdOf b routedModel) = none) :
    (proxyRequest inp routedModel upstream core).1 =
      [Ev.markInflight, Ev.upstreamCall (some false) none] ∧
    (proxyRequest inp routedModel upstream core).2.isOk = true := by
  have hest := estimateAmount_eq_none (modelIdOf b routedModel) inp.bodyLen (maxTokensOf b)
    hunknown
  simp only [proxyRequest, hchat, hparsed, hnc, hni, if_true, hest]
  by_cases hm : modelIdOf b routedModel ≠ ""
  · rw [if_pos hm]
    cases hb : b.stream <;>
      simp [proxyUpstream, PResult.isOk, hb]
  · rw [if_neg hm]
    cases hb : b.stream <;>
      simp [proxyUpstream, PResult.isOk, hb]

/-- C10 witness: a request for the unknown model id `"foo/bar"` skips
the gate and carries no pre-auth. -/
theorem unknown_model_skips_gate_witness :
    (proxyRequest ⟨true, some ⟨"foo/bar", false, 10⟩, 40, none, none, 0, "0xA"⟩ "r"
        (fun _ => ⟨200, none, "ok"⟩) (fun s => s)).1 =
      [Ev.markInflight, Ev.upstreamCall (some false) none] ∧
    (proxyRequest ⟨true, some ⟨"foo/bar", false, 10⟩, 40, none, none, 0, "0xA"⟩ "r"
        (fun _ => ⟨200, none, "ok"⟩) (fun s => s)).2.isOk = true :=
  unknown_model_skips_gate ⟨true, some ⟨"foo/bar", false, 10⟩, 40, none, none, 0, "0xA"⟩
    ⟨"foo/bar", false, 10⟩ "r" (fun _ => ⟨200, none, "ok"⟩) (fun s => s)
    rfl rfl rfl rfl (by decide)

/-! ## C4 — affordability errors fail fast -/

/-- C4: whenever the gate's estimate exists and the wallet is empty
(below the dust floor) or cannot cover the estimate, `proxyRequest`
raises the affordability error with the exact effect trace
`[markInflight, balanceCheck, removeInflight]`: no upstream call is
made (hence no payment is signed, signing happens only inside the
upstream leg), and the in-flight dedup marker is released before the
raise. -/
theorem affordability_gate (inp : ProxyIn) (b : ChatBody) (routedModel : String)
    (upstream : UpReq → UpResp) (core : String → String) (est : Nat)
    (hchat : inp.isChatCompletion = true) (hparsed : inp.parsed = some b)
    (hnc : inp.dedupCached = none) (hni : inp.dedupInflight = none)
    (hest : estimateAmount (modelIdOf b routedModel) inp.bodyLen (maxTokensOf b) = some est)
    (hfail : isEmptyBalance inp.balance = true ∨ inp.balance < (est : Int)) :
    proxyRequest inp routedModel upstream core =
      ([Ev.markInflight, Ev.balanceCheck, Ev.removeInflight],
       .thrown (if isEmptyBalance inp.balance then PErr.emptyWallet inp.walletAddress
         else PErr.insufficientFunds (formatUSDC inp.balance) (formatUSDC (est : Int))
           inp.walletAddress)) := by
  have hm : modelIdOf b routedModel ≠ "" := by
    intro h
    rw [h, estimateAmount_eq_none "" inp.bodyLen (maxTokensOf b) (by decide)] at hest
    exact Option.noConfusion hest
  simp only [proxyRequest, hchat, hparsed, hnc, hni, if_true, hest]
  rw [if_pos hm]
  by_cases hemp : isEmptyBalance inp.balance = true
  · simp [hemp]
  · have hi : inp.balance < (est : Int) := hfail.resolve_left hemp
    simp [hemp, hi]

/-- C4 witness: an empty wallet (balance 0) on a known model fails
fast with the exact `[markInflight, balanceCheck, removeInflight]`
trace and an `EmptyWalletError`. -/
theorem affordability_gate_witness :
    proxyRequest ⟨true, some ⟨"deepseek/deepseek-chat", false, 10⟩, 40, none, none, 0, "0xA"⟩
        "r" (fun _ => ⟨200, none, "ok"⟩) (fun s => s) =
      ([Ev.markInflight, Ev.balanceCheck, Ev.removeInflight],
       .thrown (PErr.emptyWallet "0xA")) := by
  have h := affordability_gate
    ⟨true, some ⟨"deepseek/deepseek-chat", false, 10⟩, 40, none, none, 0, "0xA"⟩
    ⟨"deepseek/deepseek-chat", false, 10⟩ "r" (fun _ => ⟨200, none, "ok"⟩) (fun s => s) 100
    rfl rfl rfl rfl (by decide) (Or.inl (by decide))
  rw [h]
  decide

/-! ## C8 — empty wallet end-to-end -/

/-- C8: a non-streaming chat-completion request against a wallet
whose balance is exactly 0 receives HTTP 502 with the `proxy_error`
JSON envelope whose message carries the `"No USDC balance"` phrasing
followed by the wallet address, while `GET /health` for the same
wallet still answers 200 with status `"ok"`. -/
theorem empty_wallet_end_to_end (inp : ProxyIn) (b : ChatBody) (routedModel : String)
    (upstream : UpReq → UpResp) (core : String → String) (est : Nat)
    (hchat : inp.isChatCompletion = true) (hparsed : inp.parsed = some b)
    (_hstream : b.stream = false)
    (hnc : inp.dedupCached = none) (hni : inp.dedupInflight = none)
    (hest : estimateAmount (modelIdOf b routedModel) inp.bodyLen (maxTokensOf b) = some est)
    (hbal : inp.balance = 0) :
    handleRequest "/v1/chat/completions" inp routedModel upstream core =
      .jsonOut 502 ("\x7b\"error\":\x7b\"message\":\"Proxy error: " ++
        ("No USDC balance. Fund wallet to use ClawRouter: " ++ inp.walletAddress) ++
        "\",\"type\":\"proxy_error\"\x7d\x7d") ∧
    handleRequest "/health" inp routedModel upstream core =
      .jsonOut 200 ("\x7b\"status\":\"ok\",\"wallet\":\"" ++ inp.walletAddress ++ "\"\x7d") := by
  constructor
  · have hempty : isEmptyBalance inp.balance = true := by
      rw [hbal]
      decide
    have hgate := affordability_gate inp b routedModel upstream core est
      hchat hparsed hnc hni hest (Or.inl hempty)
    rw [if_pos hempty] at hgate
    simp only [handleRequest]
    rw [if_neg (by decide : ¬ ("/v1/chat/completions" = "/health"))]
    rw [if_neg (by decide : ¬ (¬ startsWithV1 "/v1/chat/completions" = true))]
    rw [hgate]
    rfl
  · simp [handleRequest, healthBody]

/-- C8 witness: the concrete empty wallet `"0xFEED"` on a direct
model request. -/
theorem empty_wallet_end_to_end_witness :
    handleRequest "/v1/chat/completions"
        ⟨true, some ⟨"deepseek/deepseek-chat", false, 10⟩, 40, none, none, 0, "0xFEED"⟩
        "r" (fun _ => ⟨200, none, "ok"⟩) (fun s => s) =
      .jsonOut 502 ("\x7b\"error\":\x7b\"message\":\"Proxy error: " ++
        ("No USDC balance. Fund wallet to use ClawRouter: " ++ "0xFEED") ++
        "\",\"type\":\"proxy_error\"\x7d\x7d") ∧
    handleRequest "/health"
        ⟨true, some ⟨"deepseek/deepseek-chat", false, 10⟩, 40, none, none, 0, "0xFEED"⟩
        "r" (fun _ => ⟨200, none, "ok"⟩) (fun s => s) =
      .jsonOut 200 ("\x7b\"status\":\"ok\",\"wallet\":\"" ++ "0xFEED" ++ "\"\x7d") :=
  empty_wallet_end_to_end
    ⟨true, some ⟨"deepseek/deepseek-chat", false, 10⟩, 40, none, none, 0, "0xFEED"⟩
    ⟨"deepseek/deepseek-chat", false, 10⟩ "r" (fun _ => ⟨200, none, "ok"⟩) (fun s => s) 100
    rfl rfl rfl rfl rfl (by decide) rfl

/-! ## C9 — synthetic streaming re-chunking -/

/-- C9 counterexample: a successful upstream JSON result whose single
choice has empty content produces **no content-delta chunk** — the
emitted sequence is role-delta, finish-reason, terminator only
(src/proxy.ts line 840: `if (content)` guards the content chunk). -/
theorem stream_rechunk_skips_empty_content :
    (proxyRequest
        ⟨true, some ⟨"deepseek/deepseek-chat", true, 10⟩, 40, none, none, 1000000000, "0xA"⟩
        "r"
        (fun _ => ⟨200, some ⟨some [⟨some 0, some "assistant", some "", none, none, some "stop"⟩]⟩, ""⟩)
        (fun s => s)).2 =
      .ok (.sse [SSEWrite.heartbeat, SSEWrite.roleChunk 0 "assistant",
        SSEWrite.finishChunk 0 "stop", SSEWrite.doneMarker]) ∧
    ([SSEWrite.heartbeat, SSEWrite.roleChunk 0 "assistant",
      SSEWrite.finishChunk 0 "stop", SSEWrite.doneMarker].all
        (fun w => !(isContentChunk w))) = true := by
  decide

/-- C9 (amended): a streaming request is sent upstream with the body's
`stream` field forced to `false`, and a successful (200) upstream JSON
result is re-chunked per choice into: a role-delta chunk, then — only
when the thinking-stripped content is nonempty — a content-delta
chunk, then a finish-reason chunk, with the `[DONE]` terminator after
all choices. -/
theorem stream_rechunk (inp : ProxyIn) (b : ChatBody) (routedModel : String)
    (upstream : UpReq → UpResp) (core : String → String) (rsp : UpstreamJson)
    (cs : List UpChoice) (txt : String)
    (hchat : inp.isChatCompletion = true) (hparsed : inp.parsed = some b)
    (hstream : b.stream = true)
    (hnc : inp.dedupCached = none) (hni : inp.dedupInflight = none)
    (hsuff : match estimateAmount (modelIdOf b routedModel) inp.bodyLen (maxTokensOf b) with
      | some est => isEmptyBalance inp.balance = false ∧ (est : Int) ≤ inp.balance
      | none => True)
    (hup : ∀ pa, upstream ⟨modelIdOf b routedModel, some false, pa⟩ = ⟨200, some rsp, txt⟩)
    (hchoices : rsp.choices = some cs) :
    (∃ pa, Ev.upstreamCall (some false) pa ∈ (proxyRequest inp routedModel upstream core).1) ∧
    (proxyRequest inp routedModel upstream core).2 =
      .ok (.sse (SSEWrite.heartbeat ::
        (cs.flatMap (fun c =>
          [SSEWrite.roleChunk ((c.idx).getD 0)
             (((c.messageRole).orElse (fun _ => c.deltaRole)).getD "assistant")] ++
          (if stripThinkingTokens core
               (((c.messageContent).orElse (fun _ => c.deltaContent)).getD "") ≠ "" then
            [SSEWrite.contentChunk ((c.idx).getD 0)
              (stripThinkingTokens core
                (((c.messageContent).orElse (fun _ => c.deltaContent)).getD ""))]
          else []) ++
          [SSEWrite.finishChunk ((c.idx).getD 0) ((c.finishReason).getD "stop")]) ++
        [SSEWrite.doneMarker]))) := by
  have hrechunk : streamWrites core ⟨200, some rsp, txt⟩ =
      cs.flatMap (choiceWrites core) ++ [SSEWrite.doneMarker] := by
    simp [streamWrites, hchoices]
  simp only [proxyRequest, hchat, hparsed, hnc, hni, if_true, hstream]
  cases hestc : estimateAmount (modelIdOf b routedModel) inp.bodyLen (maxTokensOf b) with
  | none =>
      simp only [hestc, proxyUpstream, hup, hrechunk, ite_self]
      refine ⟨⟨none, by simp⟩, ?_⟩
      rfl
  | some est =>
      rw [hestc] at hsuff
      have hm : modelIdOf b routedModel ≠ "" := by
        intro h
        rw [h, estimateAmount_eq_none "" inp.bodyLen (maxTokensOf b) (by decide)] at hestc
        exact Option.noConfusion hestc
      simp only [if_pos hm, hestc]
      rw [if_neg (by simp [hsuff.1]), if_neg (by
        have := hsuff.2
        omega)]
      by_cases hlow : isLowBalance inp.balance = true <;>
        simp only [hlow, reduceIte, proxyUpstream, hup, hrechunk] <;>
        refine ⟨⟨some est, by simp⟩, ?_⟩ <;>
        rfl

/-- C9 witness for `stream_rechunk`: one choice with content
`"Hello"` yields role, content, finish, `[DONE]` in order. -/
theorem stream_rechunk_witness :
    (∃ pa, Ev.upstreamCall (some false) pa ∈
      (proxyRequest
        ⟨true, some ⟨"deepseek/deepseek-chat", true, 10⟩, 40, none, none, 1000000000, "0xA"⟩
        "r"
        (fun _ => ⟨200, some ⟨some [⟨some 0, some "assistant", some "Hello", none, none, some "stop"⟩]⟩, ""⟩)
        (fun s => s)).1) ∧
    (proxyRequest
        ⟨true, some ⟨"deepseek/deepseek-chat", true, 10⟩, 40, none, none, 1000000000, "0xA"⟩
        "r"
        (fun _ => ⟨200, some ⟨some [⟨some 0, some "assistant", some "Hello", none, none, some "stop"⟩]⟩, ""⟩)
        (fun s => s)).2 =
      .ok (.sse [SSEWrite.heartbeat, SSEWrite.roleChunk 0 "assistant",
        SSEWrite.contentChunk 0 "Hello", SSEWrite.finishChunk 0 "stop",
        SSEWrite.doneMarker]) := by
  have h := stream_rechunk
    ⟨true, some ⟨"deepseek/deepseek-chat", true, 10⟩, 40, none, none, 1000000000, "0xA"⟩
    ⟨"deepseek/deepseek-chat", true, 10⟩ "r"
    (fun _ => ⟨200, some ⟨some [⟨some 0, some "assistant", some "Hello", none, none, some "stop"⟩]⟩, ""⟩)
    (fun s => s)
    ⟨some [⟨some 0, some "assistant", some "Hello", none, none, some "stop"⟩]⟩
    [⟨some 0, some "assistant", some "Hello", none, none, some "stop"⟩] ""
    rfl rfl rfl rfl rfl
    (by
      rw [show estimateAmount
          (modelIdOf ⟨"deepseek/deepseek-chat", true, 10⟩ "r")
          (ProxyIn.mk true (some ⟨"deepseek/deepseek-chat", true, 10⟩) 40 none none
            1000000000 "0xA").bodyLen
          (maxTokensOf ⟨"deepseek/deepseek-chat", true, 10⟩) = some 100 from by decide]
      exact ⟨by decide, by decide⟩)
    (fun _ => rfl) rfl
  exact ⟨h.1, by rw [h.2]; decide⟩

/-! ## C1 — exactly-once upstream call for concurrent identical requests -/

/-- The invariant holds initially. -/
theorem sysInv_init (up : DedupEntry) : SysInv up Sys.init := Or.inl rfl

/-- One scheduler step preserves the invariant. -/
theorem sysInv_step (up : DedupEntry) (c : Bool) (s : Sys) (h : SysInv up s) :
    SysInv up (stepSys up c s) := by
  rcases h with hinit | ⟨hinf, hcomp, hupc, hrun⟩ | ⟨hinf, hcomp, hupc, h1, h2⟩
  · subst hinit
    cases c <;> simp [stepSys, stepReq, Sys.init, SysInv]
  · obtain ⟨p1, p2, infl, comp, upc⟩ := s
    simp only at hinf hcomp hupc hrun
    subst hinf
    subst hcomp
    subst hupc
    rcases hrun with ⟨hp1, hp2⟩ | ⟨hp2, hp1⟩
    · subst hp1
      rcases hp2 with hp2 | hp2 <;> subst hp2 <;>
        cases c <;> simp [stepSys, stepReq, SysInv]
    · subst hp2
      rcases hp1 with hp1 | hp1 <;> subst hp1 <;>
        cases c <;> simp [stepSys, stepReq, SysInv]
  · obtain ⟨p1, p2, infl, comp, upc⟩ := s
    simp only at hinf hcomp hupc h1 h2
    subst hinf
    subst hcomp
    subst hupc
    rcases h1 with hp1 | hp1 | hp1 <;> rcases h2 with hp2 | hp2 | hp2 <;>
      subst hp1 <;> subst hp2 <;>
      cases c <;> simp [stepSys, stepReq, SysInv]

/-- The invariant holds after any schedule. -/
theorem sysInv_exec (up : DedupEntry) (sched : List Bool) (s : Sys) (h : SysInv up s) :
    SysInv up (execSys up sched s) := by
  induction sched generalizing s with
  | nil => simpa [execSys] using h
  | cons c rest ih =>
      unfold execSys
      rw [List.foldl_cons]
      exact ih (stepSys up c s) (sysInv_step up c s h)

/-- C1: under any interleaving of two concurrent requests with
identical bodies (one shared dedup key), whenever both requests have
finished, exactly one upstream call was made and both callers hold the
same entry — byte-identical status and body. -/
theorem dedup_single_flight (up e1 e2 : DedupEntry) (sched : List Bool)
    (h1 : (execSys up sched Sys.init).ph1 = .finished e1)
    (h2 : (execSys up sched Sys.init).ph2 = .finished e2) :
    e1 = e2 ∧ (execSys up sched Sys.init).upcalls = 1 := by
  have hinv := sysInv_exec up sched Sys.init (sysInv_init up)
  rcases hinv with hinit | ⟨hinf, hcomp, hupc, hrun⟩ | ⟨hinf, hcomp, hupc, hp1, hp2⟩
  · rw [hinit] at h1
    exact absurd h1 (by simp [Sys.init])
  · rcases hrun with ⟨hp1, _⟩ | ⟨_, hp1s⟩
    · rw [hp1] at h1
      exact absurd h1 (by simp)
    · rcases hp1s with hp | hp <;> rw [hp] at h1 <;> exact absurd h1 (by simp)
  · rcases hp1 with hp | hp | hp
    · rw [hp] at h1
      exact absurd h1 (by simp)
    · rw [hp] at h1
      exact absurd h1 (by simp)
    · rcases hp2 with hq | hq | hq
      · rw [hq] at h2
        exact absurd h2 (by simp)
      · rw [hq] at h2
        exact absurd h2 (by simp)
      · rw [hp] at h1
        rw [hq] at h2
        have he1 : up = e1 := by
          injection h1
        have he2 : up = e2 := by
          injection h2
        exact ⟨he1 ▸ he2 ▸ rfl, hupc⟩

/-- C1 witness: a schedule where the second request's dedup check runs
while the first is in flight; both finish with the same entry after a
single upstream call. -/
theorem dedup_single_flight_witness :
    (⟨200, "ok"⟩ : DedupEntry) = (⟨200, "ok"⟩ : DedupEntry) ∧
    (execSys ⟨200, "ok"⟩ [true, false, true, false] Sys.init).upcalls = 1 :=
  dedup_single_flight ⟨200, "ok"⟩ ⟨200, "ok"⟩ ⟨200, "ok"⟩ [true, false, true, false]
    (by decide) (by decide)

/-! ## C7 — balance formatting through binary64 -/

/-- Round-half-even never rounds below the floor. -/
theorem roundHalfEven_ge (q : ℚ) : ⌊q⌋ ≤ roundHalfEven q := by
  simp only [roundHalfEven]
  split_ifs <;> omega

/-- Round-half-even never exceeds the floor plus one. -/
theorem roundHalfEven_le (q : ℚ) : roundHalfEven q ≤ ⌊q⌋ + 1 := by
  simp only [roundHalfEven]
  split_ifs <;> omega

/-- A fractional part strictly below one half rounds down. -/
theorem roundHalfEven_eq_floor (x : ℚ) (h : x - ⌊x⌋ < 1/2) : roundHalfEven x = ⌊x⌋ := by
  simp only [roundHalfEven]
  rw [if_pos h]

/-- A fractional part strictly above one half rounds up. -/
theorem roundHalfEven_eq_floor_add_one (x : ℚ) (h : 1/2 < x - ⌊x⌋) :
    roundHalfEven x = ⌊x⌋ + 1 := by
  simp only [roundHalfEven]
  rw [if_neg (by linarith), if_pos h]

/-- Integers round to themselves. -/
theorem roundHalfEven_intCast (n : ℤ) : roundHalfEven (n : ℚ) = n := by
  have h : ((n:ℚ) - ⌊(n:ℚ)⌋) < 1/2 := by
    rw [Int.floor_intCast]
    norm_num
  rw [roundHalfEven_eq_floor _ h, Int.floor_intCast]

/-- Round-half-even is monotone. -/
theorem roundHalfEven_mono {x y : ℚ} (h : x ≤ y) : roundHalfEven x ≤ roundHalfEven y := by
  rcases lt_or_ge ⌊x⌋ ⌊y⌋ with hf | hf
  · have h1 := roundHalfEven_le x
    have h2 := roundHalfEven_ge y
    omega
  · have hfe : ⌊x⌋ = ⌊y⌋ := le_antisymm (Int.floor_mono h) hf
    have hr : x - (⌊y⌋ : ℚ) ≤ y - (⌊y⌋ : ℚ) := by linarith
    simp only [roundHalfEven]
    rw [hfe]
    split_ifs <;> first | omega | linarith

/-- Determine `Int.log 2` from the enclosing binade. -/
theorem Int_log2_eq (q : ℚ) (n : ℤ) (hq : 0 < q) (h1 : (2:ℚ)^n ≤ q)
    (h2 : q < (2:ℚ)^(n+1)) : Int.log 2 q = n := by
  have ha : n ≤ Int.log 2 q := (Int.zpow_le_iff_le_log (by norm_num) hq).mp (by exact_mod_cast h1)
  have hb : Int.log 2 q < n + 1 :=
    (Int.lt_zpow_iff_log_lt (by norm_num) hq).mp (by exact_mod_cast h2)
  omega

/-- Determine a floor from two bounds. -/
theorem floor_eval (x : ℚ) (n : ℤ) (h1 : (n:ℚ) ≤ x) (h2 : x < n + 1) : ⌊x⌋ = n :=
  Int.floor_eq_iff.mpr ⟨h1, by exact_mod_cast h2⟩

/-- Unfolding lemma for `doublePos`. -/
theorem doublePos_def (q : ℚ) :
    doublePos q =
      (roundHalfEven (q * 2 ^ ((52:ℤ) - Int.log 2 q)) : ℚ) * 2 ^ (Int.log 2 q - 52) := rfl

/-- The rounded double of a positive rational is nonnegative. -/
theorem doublePos_nonneg {q : ℚ} (hq : 0 < q) : 0 ≤ doublePos q := by
  unfold doublePos
  have h1 : (0:ℤ) ≤ ⌊q * 2 ^ ((52:ℤ) - Int.log 2 q)⌋ := by
    apply Int.floor_nonneg.mpr
    positivity
  have h2 := roundHalfEven_ge (q * 2 ^ ((52:ℤ) - Int.log 2 q))
  have h3 : (0:ℚ) ≤ (roundHalfEven (q * 2 ^ ((52:ℤ) - Int.log 2 q)) : ℚ) := by
    exact_mod_cast le_trans h1 h2
  positivity

/-- Binary64 rounding is monotone on positive rationals. -/
theorem doublePos_mono {x y : ℚ} (hx : 0 < x) (h : x ≤ y) : doublePos x ≤ doublePos y := by
  have hy : 0 < y := lt_of_lt_of_le hx h
  have hn : Int.log 2 x ≤ Int.log 2 y := Int.log_mono_right hx h
  rcases eq_or_lt_of_le hn with heq | hlt
  · unfold doublePos
    rw [← heq]
    have hs : x * 2 ^ ((52:ℤ) - Int.log 2 x) ≤ y * 2 ^ ((52:ℤ) - Int.log 2 x) := by
      apply mul_le_mul_of_nonneg_right h (by positivity)
    have hr := roundHalfEven_mono hs
    apply mul_le_mul_of_nonneg_right _ (by positivity)
    exact_mod_cast hr
  · set nx := Int.log 2 x with hnx
    set ny := Int.log 2 y with hny
    have hupper : doublePos x ≤ 2 ^ (nx + 1) := by
      unfold doublePos
      rw [← hnx]
      have hlt1 : x < 2 ^ (nx + 1) := Int.lt_zpow_succ_log_self (by norm_num) x
      have hscaled : x * 2 ^ ((52:ℤ) - nx) < 2 ^ (53:ℤ) := by
        calc x * 2 ^ ((52:ℤ) - nx) < 2 ^ (nx + 1) * 2 ^ ((52:ℤ) - nx) := by
              apply mul_lt_mul_of_pos_right hlt1 (by positivity)
          _ = 2 ^ (53:ℤ) := by
              rw [← zpow_add₀ (by norm_num : (2:ℚ) ≠ 0)]
              ring_nf
      have hfl : roundHalfEven (x * 2 ^ ((52:ℤ) - nx)) ≤ 2 ^ 53 := by
        have hle := roundHalfEven_le (x * 2 ^ ((52:ℤ) - nx))
        have hfl2 : ⌊x * 2 ^ ((52:ℤ) - nx)⌋ < (2:ℤ) ^ 53 := by
          apply Int.floor_lt.mpr
          exact_mod_cast hscaled
        omega
      calc (roundHalfEven (x * 2 ^ ((52:ℤ) - nx)) : ℚ) * 2 ^ (nx - 52)
          ≤ (2:ℚ) ^ (53:ℤ) * 2 ^ (nx - 52) := by
            apply mul_le_mul_of_nonneg_right _ (by positivity)
            exact_mod_cast hfl
        _ = 2 ^ (nx + 1) := by
            rw [← zpow_add₀ (by norm_num : (2:ℚ) ≠ 0)]
            ring_nf
    have hlower : (2:ℚ) ^ ny ≤ doublePos y := by
      unfold doublePos
      rw [← hny]
      have hge : (2:ℚ) ^ ny ≤ y := by
        have := Int.zpow_log_le_self (b := 2) (by norm_num) hy
        exact_mod_cast this
      have hscaled : (2:ℚ) ^ (52:ℤ) ≤ y * 2 ^ ((52:ℤ) - ny) := by
        calc (2:ℚ) ^ (52:ℤ) = 2 ^ ny * 2 ^ ((52:ℤ) - ny) := by
              rw [← zpow_add₀ (by norm_num : (2:ℚ) ≠ 0)]
              ring_nf
          _ ≤ y * 2 ^ ((52:ℤ) - ny) := by
              apply mul_le_mul_of_nonneg_right hge (by positivity)
      have hfl : (2:ℤ) ^ 52 ≤ roundHalfEven (y * 2 ^ ((52:ℤ) - ny)) := by
        have hge2 := roundHalfEven_ge (y * 2 ^ ((52:ℤ) - ny))
        have hfl2 : (2:ℤ) ^ 52 ≤ ⌊y * 2 ^ ((52:ℤ) - ny)⌋ := by
          apply Int.le_floor.mpr
          exact_mod_cast hscaled
        omega
      calc (2:ℚ) ^ ny = (2:ℚ) ^ (52:ℤ) * 2 ^ (ny - 52) := by
            rw [← zpow_add₀ (by norm_num : (2:ℚ) ≠ 0)]
            ring_nf
        _ ≤ (roundHalfEven (y * 2 ^ ((52:ℤ) - ny)) : ℚ) * 2 ^ (ny - 52) := by
            apply mul_le_mul_of_nonneg_right _ (by positivity)
            exact_mod_cast hfl
    have hmid : (2:ℚ) ^ (nx + 1) ≤ (2:ℚ) ^ ny :=
      zpow_le_zpow_right₀ (by norm_num) (by omega)
    linarith

/-- `doubleRound` is nonnegative. -/
theorem doubleRound_nonneg (q : ℚ) : 0 ≤ doubleRound q := by
  unfold doubleRound
  split_ifs with h
  · exact le_refl 0
  · exact doublePos_nonneg (not_le.mp h)

/-- `doubleRound` is monotone. -/
theorem doubleRound_mono {x y : ℚ} (h : x ≤ y) : doubleRound x ≤ doubleRound y := by
  unfold doubleRound
  split_ifs with h1 h2 h2
  · exact le_refl 0
  · exact doublePos_nonneg (not_le.mp h2)
  · exact absurd (le_trans h h2) h1
  · exact doublePos_mono (not_le.mp h1) h

/-- `toFixed2` is monotone. -/
theorem toFixed2_mono {x y : ℚ} (h : x ≤ y) : toFixed2 x ≤ toFixed2 y := by
  unfold toFixed2
  apply Int.floor_mono
  linarith

/-- A nonnegative integer below `2^53` is exactly representable: the
first binary64 rounding of `formatUSDC` is the identity on it. -/
theorem doubleRound_int (m : ℤ) (h0 : 0 ≤ m) (h : m < 2^53) : doubleRound (m:ℚ) = m := by
  rcases eq_or_lt_of_le h0 with hz | hpos
  · rw [← hz]
    simp [doubleRound]
  · have hq : (0:ℚ) < m := by exact_mod_cast hpos
    unfold doubleRound
    rw [if_neg (not_le.mpr hq), doublePos_def]
    set e := Int.log 2 ((m:ℚ)) with he
    have he0 : 0 ≤ e := by
      apply (Int.zpow_le_iff_le_log (by norm_num) hq).mp
      have : (1:ℚ) ≤ m := by exact_mod_cast hpos
      simpa using this
    have he52 : e ≤ 52 := by
      by_contra hc
      push_neg at hc
      have h53 : (2:ℚ) ^ (53:ℤ) ≤ (2:ℚ) ^ e := zpow_le_zpow_right₀ (by norm_num) (by omega)
      have hle : (2:ℚ) ^ e ≤ (m:ℚ) := by
        have := Int.zpow_log_le_self (b := 2) (by norm_num) hq
        exact_mod_cast this
      have hlt : (m:ℚ) < (2:ℚ) ^ (53:ℤ) := by
        have : ((2:ℤ)^53 : ℚ) = (2:ℚ) ^ (53:ℤ) := by
          push_cast
          norm_num
        rw [← this]
        exact_mod_cast h
      linarith
    set k := (52 - e).toNat with hk
    have hke : (52:ℤ) - e = (k:ℤ) := by omega
    have hscaled : (m:ℚ) * 2 ^ ((52:ℤ) - e) = ((m * 2^k : ℤ) : ℚ) := by
      rw [hke, zpow_natCast]
      push_cast
      ring
    rw [hscaled, roundHalfEven_intCast]
    have hes : e - 52 = -(k:ℤ) := by omega
    rw [hes]
    push_cast
    rw [← zpow_natCast (2:ℚ) k, zpow_neg, mul_assoc, mul_inv_cancel₀ (by positivity)]
    ring

/-- The rendered cents are monotone in the amount. -/
theorem formatCents_mono (m1 m2 : ℤ) (h : m1 ≤ m2) : formatCents m1 ≤ formatCents m2 := by
  unfold formatCents
  apply toFixed2_mono
  apply doubleRound_mono
  have hc : ((m1:ℚ)) ≤ ((m2:ℚ)) := by exact_mod_cast h
  exact (div_le_div_iff_of_pos_right (by norm_num : (0:ℚ) < 1000000)).mpr (doubleRound_mono hc)

/-- `formatUSDC 0 = "$0.00"`. -/
theorem formatUSDC_0 : formatUSDC 0 = "$0.00" := by
  unfold formatUSDC formatCents
  rw [doubleRound_int 0 (by norm_num) (by norm_num)]
  rw [show ((0:ℤ):ℚ) / 1000000 = 0 from by norm_num]
  rw [show doubleRound (0:ℚ) = 0 from by simp [doubleRound]]
  unfold toFixed2
  rw [floor_eval _ 0 (by norm_num) (by norm_num)]
  decide

/-- `formatUSDC 100 = "$0.00"`: the double of `0.0001` sits just above
the exact value and still renders zero cents. -/
theorem formatUSDC_100 : formatUSDC 100 = "$0.00" := by
  unfold formatUSDC formatCents
  rw [doubleRound_int 100 (by norm_num) (by norm_num)]
  rw [show ((100:ℤ):ℚ) / 1000000 = 1/10000 from by norm_num]
  have hlog : Int.log 2 ((1:ℚ)/10000) = -14 :=
    Int_log2_eq _ _ (by norm_num) (by norm_num) (by norm_num)
  have hfl : ⌊(1/10000 : ℚ) * 2 ^ ((52:ℤ) - (-14))⌋ = 7378697629483820 :=
    floor_eval _ _ (by norm_num) (by norm_num)
  have hrk : roundHalfEven ((1/10000 : ℚ) * 2 ^ ((52:ℤ) - (-14))) = 7378697629483821 := by
    rw [roundHalfEven_eq_floor_add_one _ (by rw [hfl]; norm_num), hfl]
    decide
  have hdp : doubleRound ((1:ℚ)/10000) = (7378697629483821 : ℚ) * 2 ^ ((-14:ℤ) - 52) := by
    unfold doubleRound
    rw [if_neg (by norm_num), doublePos_def, hlog, hrk]
    norm_num
  rw [hdp]
  unfold toFixed2
  rw [floor_eval _ 0 (by norm_num) (by norm_num)]
  decide

/-- `formatUSDC 10000 = "$0.01"`. -/
theorem formatUSDC_10000 : formatUSDC 10000 = "$0.01" := by
  unfold formatUSDC formatCents
  rw [doubleRound_int 10000 (by norm_num) (by norm_num)]
  rw [show ((10000:ℤ):ℚ) / 1000000 = 1/100 from by norm_num]
  have hlog : Int.log 2 ((1:ℚ)/100) = -7 :=
    Int_log2_eq _ _ (by norm_num) (by norm_num) (by norm_num)
  have hfl : ⌊(1/100 : ℚ) * 2 ^ ((52:ℤ) - (-7))⌋ = 5764607523034234 :=
    floor_eval _ _ (by norm_num) (by norm_num)
  have hrk : roundHalfEven ((1/100 : ℚ) * 2 ^ ((52:ℤ) - (-7))) = 5764607523034235 := by
    rw [roundHalfEven_eq_floor_add_one _ (by rw [hfl]; norm_num), hfl]
    decide
  have hdp : doubleRound ((1:ℚ)/100) = (5764607523034235 : ℚ) * 2 ^ ((-7:ℤ) - 52) := by
    unfold doubleRound
    rw [if_neg (by norm_num), doublePos_def, hlog, hrk]
    norm_num
  rw [hdp]
  unfold toFixed2
  rw [floor_eval _ 1 (by norm_num) (by norm_num)]
  decide

/-- `formatUSDC 1000000 = "$1.00"`. -/
theorem formatUSDC_1000000 : formatUSDC 1000000 = "$1.00" := by
  unfold formatUSDC formatCents
  rw [doubleRound_int 1000000 (by norm_num) (by norm_num)]
  rw [show ((1000000:ℤ):ℚ) / 1000000 = ((1:ℤ):ℚ) from by norm_num]
  rw [doubleRound_int 1 (by norm_num) (by norm_num)]
  unfold toFixed2
  rw [floor_eval _ 100 (by norm_num) (by norm_num)]
  decide

/-- `formatUSDC 12345678 = "$12.35"`. -/
theorem formatUSDC_12345678 : formatUSDC 12345678 = "$12.35" := by
  unfold formatUSDC formatCents
  rw [doubleRound_int 12345678 (by norm_num) (by norm_num)]
  rw [show ((12345678:ℤ):ℚ) / 1000000 = 6172839/500000 from by norm_num]
  have hlog : Int.log 2 ((6172839:ℚ)/500000) = 3 :=
    Int_log2_eq _ _ (by norm_num) (by norm_num) (by norm_num)
  have hfl : ⌊(6172839/500000 : ℚ) * 2 ^ ((52:ℤ) - 3)⌋ = 6949998855054516 :=
    floor_eval _ _ (by norm_num) (by norm_num)
  have hrk : roundHalfEven ((6172839/500000 : ℚ) * 2 ^ ((52:ℤ) - 3)) = 6949998855054516 := by
    rw [roundHalfEven_eq_floor _ (by rw [hfl]; norm_num), hfl]
  have hdp : doubleRound ((6172839:ℚ)/500000) = (6949998855054516 : ℚ) * 2 ^ ((3:ℤ) - 52) := by
    unfold doubleRound
    rw [if_neg (by norm_num), doublePos_def, hlog, hrk]
    norm_num
  rw [hdp]
  unfold toFixed2
  rw [floor_eval _ 1235 (by norm_num) (by norm_num)]
  decide

/-- `formatUSDC 15000 = "$0.01"`: the double of `0.015` sits just
below the exact tie, so `toFixed(2)` rounds down. -/
theorem formatUSDC_15000 : formatUSDC 15000 = "$0.01" := by
  unfold formatUSDC formatCents
  rw [doubleRound_int 15000 (by norm_num) (by norm_num)]
  rw [show ((15000:ℤ):ℚ) / 1000000 = 3/200 from by norm_num]
  have hlog : Int.log 2 ((3:ℚ)/200) = -7 :=
    Int_log2_eq _ _ (by norm_num) (by norm_num) (by norm_num)
  have hfl : ⌊(3/200 : ℚ) * 2 ^ ((52:ℤ) - (-7))⌋ = 8646911284551352 :=
    floor_eval _ _ (by norm_num) (by norm_num)
  have hrk : roundHalfEven ((3/200 : ℚ) * 2 ^ ((52:ℤ) - (-7))) = 8646911284551352 := by
    rw [roundHalfEven_eq_floor _ (by rw [hfl]; norm_num), hfl]
  have hdp : doubleRound ((3:ℚ)/200) = (8646911284551352 : ℚ) * 2 ^ ((-7:ℤ) - 52) := by
    unfold doubleRound
    rw [if_neg (by norm_num), doublePos_def, hlog, hrk]
    norm_num
  rw [hdp]
  unfold toFixed2
  rw [floor_eval _ 1 (by norm_num) (by norm_num)]
  decide

/-- C7 counterexample: `formatUSDC` does **not** round half away from
zero.  `15000` micros is exactly `$0.015`; half-away-from-zero demands
`"$0.02"`, but the binary64 value of `0.015` lies just below the tie
and the code renders `"$0.01"`. -/
theorem formatUSDC_not_half_away :
    formatUSDC 15000 = "$0.01" ∧ halfAwayFormat 15000 = "$0.02" ∧
    ("$0.01" : String) ≠ "$0.02" := by
  refine ⟨formatUSDC_15000, ?_, by decide⟩
  unfold halfAwayFormat halfAwayCents
  rw [if_pos (by norm_num : (0:ℤ) ≤ 15000)]
  rw [floor_eval _ 2 (by norm_num) (by norm_num)]
  decide

/-- C7 (amended): `formatUSDC` divides by `1_000_000` in binary64 and
renders two decimals via `toFixed`, which rounds the *double* value to
the nearest hundredth (ties of the double toward the larger value); it
is monotonic, and takes the specified values at 0, 100, 10 000,
1 000 000 and 12 345 678 — but an exact half such as 15 000 micros
renders `"$0.01"`, not the half-away-from-zero `"$0.02"`. -/
theorem formatUSDC_contract :
    (∀ m1 m2 : ℤ, 0 ≤ m1 → m1 ≤ m2 → formatCents m1 ≤ formatCents m2) ∧
    formatUSDC 0 = "$0.00" ∧ formatUSDC 100 = "$0.00" ∧
    formatUSDC 10000 = "$0.01" ∧ formatUSDC 1000000 = "$1.00" ∧
    formatUSDC 12345678 = "$12.35" ∧ formatUSDC 15000 = "$0.01" :=
  ⟨fun m1 m2 _ h => formatCents_mono m1 m2 h, formatUSDC_0, formatUSDC_100,
   formatUSDC_10000, formatUSDC_1000000, formatUSDC_12345678, formatUSDC_15000⟩

/-- C7 witness for `formatUSDC_contract`: monotonicity applied at
`100 ≤ 10000`. -/
theorem formatUSDC_contract_witness : formatCents 100 ≤ formatCents 10000 :=
  formatUSDC_contract.1 100 10000 (by decide) (by decide)

end ClawRouter
